import Mathlib

/-
Verification development for the device-placement and execution-orchestration
layer of exllamav2 (src/exllamav2/model.py).

The Python source is shallowly embedded below:
  * `ExLlamaV2Config` mirrors the configuration fields the orchestration layer
    reads (all other fields are never consulted by the code under study).
  * `ExLlamaV2Module` is one placeable unit of the module graph; the concrete
    layer classes (embedding, attention, MLP, RMS norm, linear) live outside
    this file's source, so a unit is its key plus a kind tag, and its external
    `weight_footprint()` / `scratch_space()` methods are parameters `wf`/`sc`
    of the planner, while its external `forward()` method is a parameter `mf`
    of the dispatcher.
  * Byte counts are `Nat`/`Int`; the fp16 constants 0 and -65504 are exact,
    so mask entries are `Int`.  The GB-valued return of `set_device_map`
    (a Python float division by 1024**3 that is exact at the scales proved
    about here) is modelled as `Rat`.
-/

structure ExLlamaV2Config where
  hidden_size : Nat
  num_hidden_layers : Nat
  head_dim : Nat
  vocab_size : Nat
  max_seq_len : Nat
  max_input_len : Nat
  max_batch_size : Nat
deriving DecidableEq

inductive ModuleKind where
  | embedding
  | attention (layer_idx : Nat)
  | mlp (layer_idx : Nat)
  | rmsnorm
  | linear (in_features : Nat) (out_features : Nat) (has_bias : Bool)
deriving DecidableEq

structure ExLlamaV2Module where
  key : String
  kind : ModuleKind
deriving DecidableEq

/-- `ExLlamaV2Embedding(self, "model.embed_tokens")` in `__init__`. -/
def embedUnit : ExLlamaV2Module :=
  ⟨"model.embed_tokens", ModuleKind.embedding⟩

/-- `ExLlamaV2Attention(self, f"model.layers.{layer_idx}", layer_idx)`. -/
def attnUnit (layer_idx : Nat) : ExLlamaV2Module :=
  ⟨"model.layers." ++ toString layer_idx, ModuleKind.attention layer_idx⟩

/-- `ExLlamaV2MLP(self, f"model.layers.{layer_idx}", layer_idx)`. -/
def mlpUnit (layer_idx : Nat) : ExLlamaV2Module :=
  ⟨"model.layers." ++ toString layer_idx, ModuleKind.mlp layer_idx⟩

/-- `ExLlamaV2RMSNorm(self, "model.norm")`. -/
def modelNormUnit : ExLlamaV2Module :=
  ⟨"model.norm", ModuleKind.rmsnorm⟩

/-- `ExLlamaV2Linear(self, "lm_head", hidden_size, vocab_size, False)`:
the output projection, sized hidden_size to vocab_size, without bias. -/
def lmHeadUnit (cfg : ExLlamaV2Config) : ExLlamaV2Module :=
  ⟨"lm_head", ModuleKind.linear cfg.hidden_size cfg.vocab_size false⟩

def defaultUnit : ExLlamaV2Module :=
  ⟨"", ModuleKind.rmsnorm⟩

/-- The per-layer body of the `for layer_idx in range(num_hidden_layers)`
loop of `__init__`: each iteration appends an attention unit and then an MLP
unit for that layer index. -/
def layer_units : Nat → List ExLlamaV2Module
  | 0 => []
  | n + 1 => layer_units n ++ [attnUnit n, mlpUnit n]

/-- The ordered module graph built by `ExLlamaV2.__init__` (top-level units
only; each unit's submodules are registered in `modules_dict` but never enter
`self.modules`). -/
def buildModules (cfg : ExLlamaV2Config) : List ExLlamaV2Module :=
  embedUnit :: (layer_units cfg.num_hidden_layers ++ [modelNormUnit, lmHeadUnit cfg])

/-- `isinstance(module, ExLlamaV2Attention)`. -/
def is_attn (m : ExLlamaV2Module) : Bool :=
  match m.kind with
  | ModuleKind.attention _ => true
  | _ => false

def is_linear (m : ExLlamaV2Module) : Bool :=
  match m.kind with
  | ModuleKind.linear _ _ _ => true
  | _ => false

/-- The backwards scan of `__init__` that finds the last module that is an
`ExLlamaV2Attention`: `layer_idx` starts at `len(modules)` and is decremented
before each test, so with argument `n + 1` the module at index `n` is tested
first.  (When no attention module exists the Python loop would run off the
front of the list; that case is represented by `none`.) -/
def lastAttnFrom (mods : List ExLlamaV2Module) : Nat → Option Nat
  | 0 => none
  | n + 1 =>
    if is_attn (mods.getD n defaultUnit) then some n else lastAttnFrom mods n

/-- `self.last_kv_layer_idx` as computed at the end of `__init__`. -/
def last_kv_layer_idx (mods : List ExLlamaV2Module) : Option Nat :=
  lastAttnFrom mods mods.length

/-- Additive attention-bias tensor: its torch shape together with its entries
(indexed batch, head, query row, key column; entries outside the shape are
irrelevant and the embedding makes them 0). -/
structure AttnMask where
  shape : List Nat
  entry : Nat → Nat → Nat → Nat → Int

/-- `ExLlamaV2.build_attn_mask`.  For `seq_len > 1` the code allocates
`zeros(batch_size, 1, seq_len, past_len + seq_len)` and writes
`triu(full((seq_len-1, seq_len-1), -65504.))` into rows `0..seq_len-2`,
columns `past_len+1..past_len+seq_len-1`; `torch.triu` (diagonal 0) keeps the
entries on or above the diagonal, i.e. block entry `(i, j)` is -65504 exactly
when `i ≤ j`.  When an input mask is given it is converted (true → 0,
false → -65504) and merged by elementwise minimum, broadcast over the head
and query dimensions (the torch broadcast only aligns when `past_len = 0`,
which is the only situation in which the running code reaches the merge).
For `seq_len = 1` the function returns `None`. -/
def build_attn_mask (batch_size seq_len past_len : Nat)
    (input_mask : Option (Nat → Nat → Bool)) : Option AttnMask :=
  if 1 < seq_len then
    let base : Nat → Nat → Nat → Nat → Int := fun _ _ i k =>
      if i < seq_len - 1 ∧ past_len + 1 ≤ k ∧ k < past_len + seq_len ∧
          i ≤ k - (past_len + 1) then
        -65504
      else 0
    let entry : Nat → Nat → Nat → Nat → Int :=
      match input_mask with
      | none => base
      | some im => fun b h i k =>
          min (base b h i k) (if im b k then 0 else -65504)
    some ⟨[batch_size, 1, seq_len, past_len + seq_len], entry⟩
  else
    none

/-- State of one `ExLlamaV2DeviceTensors` instance.  The torch contents of
the sin/cos tables and the scratch arena live in the opaque backend; the
orchestration-relevant state is the bump cursor (`scratch_idx`, counted in
half-precision elements exactly as in the source), the arena size, the
`ready` flag and whether the arena tensor exists (`scratch is not None`). -/
structure ExLlamaV2DeviceTensors where
  device_idx : Nat
  scratch_bytes : Nat
  scratch_idx : Nat
  ready : Bool
  has_scratch : Bool
deriving DecidableEq

/-- `ExLlamaV2DeviceTensors.__init__(model, device_idx, scratch_bytes)`. -/
def initDeviceTensors (device_idx scratch_bytes : Nat) : ExLlamaV2DeviceTensors :=
  ⟨device_idx, scratch_bytes, 0, false, false⟩

/-- `prepare(scratch)`: computes the sin/cos tables (external numerics, not
tracked here), allocates the arena when requested, and sets `ready`. -/
def prepare (dt : ExLlamaV2DeviceTensors) (scratch : Bool) : ExLlamaV2DeviceTensors :=
  { dt with ready := true, has_scratch := if scratch then true else dt.has_scratch }

/-- `begin_scratch_alloc()`. -/
def begin_scratch_alloc (dt : ExLlamaV2DeviceTensors) : ExLlamaV2DeviceTensors :=
  { dt with scratch_idx := 0 }

/-- A `narrow(0, offset, len)` view of the half-precision scratch arena. -/
structure ScratchSlice where
  offset : Nat
  len : Nat
deriving DecidableEq

/-- `get_scratch_slice(size_bytes)`: lazily prepares the arena, rounds the
request up to a 128-byte boundary, returns the view starting at the current
cursor and advances the cursor by the rounded size (in half elements). -/
def get_scratch_slice (dt : ExLlamaV2DeviceTensors) (size_bytes : Nat) :
    ScratchSlice × ExLlamaV2DeviceTensors :=
  let dt1 := if dt.has_scratch then dt else prepare dt true
  let size_bytes' := (size_bytes + 127) / 128 * 128
  let size_half := size_bytes' / 2
  (⟨dt1.scratch_idx, size_half⟩, { dt1 with scratch_idx := dt1.scratch_idx + size_half })

/-- A sequence of `get_scratch_slice` requests issued within one reset cycle
(no intervening `begin_scratch_alloc`). -/
def scratchRun (dt : ExLlamaV2DeviceTensors) : List Nat → List ScratchSlice × ExLlamaV2DeviceTensors
  | [] => ([], dt)
  | s :: rest =>
    let r := get_scratch_slice dt s
    let rr := scratchRun r.2 rest
    (r.1 :: rr.1, rr.2)

/-- The inner `while True` loop of `set_device_map`, iterated over the suffix
of `allocation_bytes` that starts at the cursor: the assert fires (with the
fixed message of the source) once the cursor runs past the last device,
otherwise the loop stops at the first device where the unit's footprint plus
`max(scratch, reserve_bytes[current_idx])` fits, returning that device index
and that `dev_scratch` value. -/
def findDeviceAux (fp sc : Nat) (reserve : List Nat) :
    List Int → Nat → Except String (Nat × Nat)
  | [], _ => Except.error "Insufficient space in device allocation"
  | ab :: rest, i =>
    let dev_scratch := max sc (reserve.getD i 0)
    if (fp : Int) + (dev_scratch : Int) ≤ ab then Except.ok (i, dev_scratch)
    else findDeviceAux fp sc reserve rest (i + 1)

def findDevice (fp sc : Nat) (alloc : List Int) (reserve : List Nat) (cur : Nat) :
    Except String (Nat × Nat) :=
  findDeviceAux fp sc reserve (alloc.drop cur) cur

/-- Outcome of the packing loop of `set_device_map`: the device index chosen
for each packed unit in order, the final `allocation_bytes` and
`reserve_bytes` ledgers, the final cursor, and (for stating the ledger
invariant) the snapshot of `allocation_bytes` taken after each placement. -/
structure PackResult where
  devices : List Nat
  allocation_bytes : List Int
  reserve_bytes : List Nat
  current_idx : Nat
  alloc_trace : List (List Int)
deriving DecidableEq

/-- The `for idx, module in enumerate(self.modules)` packing loop of
`set_device_map`, restricted to the units that participate in packing
(the host-pinned embedding case is handled by `set_device_map` itself):
find the device, write `reserve_bytes[dev] = dev_scratch`, subtract the
footprint from `allocation_bytes[dev]`, assign the unit, and continue with
the cursor at that device. -/
def packModules (wf sc : ExLlamaV2Module → Nat) :
    List ExLlamaV2Module → List Int → List Nat → Nat → Except String PackResult
  | [], alloc, reserve, cur => Except.ok ⟨[], alloc, reserve, cur, []⟩
  | m :: rest, alloc, reserve, cur =>
    match findDevice (wf m) (sc m) alloc reserve cur with
    | Except.error e => Except.error e
    | Except.ok (dev, dev_scratch) =>
      let reserve' := reserve.set dev dev_scratch
      let alloc' := alloc.set dev (alloc.getD dev 0 - (wf m : Int))
      match packModules wf sc rest alloc' reserve' dev with
      | Except.error e => Except.error e
      | Except.ok r =>
        Except.ok ⟨dev :: r.devices, r.allocation_bytes, r.reserve_bytes,
          r.current_idx, alloc' :: r.alloc_trace⟩

/-- The per-device byte budgets after `set_device_map` reserves the
always-resident constants: `a * 1024**3 - state_size - mask_size -
constant_size`, with `constant_size = (head_dim * max_seq_len * 2) * 2`,
`state_size = hidden_size * max_input_len * max_batch_size * 2` and
`mask_size = max_input_len ** 2 * 2`. -/
def initial_allocation_bytes (cfg : ExLlamaV2Config) (allocation : List Nat) : List Int :=
  let sincos_size : Int := cfg.head_dim * cfg.max_seq_len * 2
  let constant_size : Int := sincos_size * 2
  let state_size : Int := cfg.hidden_size * cfg.max_input_len * cfg.max_batch_size * 2
  let mask_size : Int := (cfg.max_input_len : Int) ^ 2 * 2
  allocation.map fun a : Nat => (a : Int) * 1024 ^ 3 - state_size - mask_size - constant_size

/-- Observable outcome of `set_device_map`: the `device_idx` assigned to each
module of the graph in order (-1 = host), the final ledgers, the snapshots of
`allocation_bytes` after each placement, and the `ExLlamaV2DeviceTensors`
instances created at the end.  The value the method returns is modelled
separately by `set_device_map_return`. -/
structure PlanResult where
  device_map : List Int
  allocation_bytes : List Int
  reserve_bytes : List Nat
  alloc_trace : List (List Int)
  device_tensors : List ExLlamaV2DeviceTensors
deriving DecidableEq

def mkPlanResult (dm : List Int) (r : PackResult) : PlanResult :=
  { device_map := dm
    allocation_bytes := r.allocation_bytes
    reserve_bytes := r.reserve_bytes
    alloc_trace := r.alloc_trace
    device_tensors := r.reserve_bytes.enum.map fun p => initDeviceTensors p.1 p.2 }

/-- `ExLlamaV2.set_device_map(allocation, embed_cpu = True)`.  The budgets
`allocation` are in GB as in the source.  When `embed_cpu` is set the module
at index 0 is pinned to device -1 and skipped by the packing loop; every
other unit is packed by `packModules` starting from cursor 0. -/
def set_device_map (cfg : ExLlamaV2Config) (wf sc : ExLlamaV2Module → Nat)
    (mods : List ExLlamaV2Module) (allocation : List Nat) (embed_cpu : Bool) :
    Except String PlanResult :=
  let allocation_bytes := initial_allocation_bytes cfg allocation
  let reserve_bytes : List Nat := allocation.map fun _ => 0
  match mods, embed_cpu with
  | _m0 :: rest, true =>
    (match packModules wf sc rest allocation_bytes reserve_bytes 0 with
     | Except.error e => Except.error e
     | Except.ok r => Except.ok (mkPlanResult ((-1) :: r.devices.map Int.ofNat) r))
  | mods', _ =>
    (match packModules wf sc mods' allocation_bytes reserve_bytes 0 with
     | Except.error e => Except.error e
     | Except.ok r => Except.ok (mkPlanResult (r.devices.map Int.ofNat) r))

/-- The value `set_device_map` returns on line 198 of the source:
`[ab / 1024**3 for ab in allocation_bytes]` — the leftover budgets converted
to GB by a float division that is modelled as exact rational division. -/
def set_device_map_return (cfg : ExLlamaV2Config) (wf sc : ExLlamaV2Module → Nat)
    (mods : List ExLlamaV2Module) (allocation : List Nat) (embed_cpu : Bool) :
    Except String (List Rat) :=
  match set_device_map cfg wf sc mods allocation embed_cpu with
  | Except.error e => Except.error e
  | Except.ok r => Except.ok (r.allocation_bytes.map fun ab : Int => (ab : Rat) / 1024 ^ 3)

/-- The budget list `gpu_split or [99999]` that `ExLlamaV2.load` hands to
`set_device_map`: Python's `or` substitutes the default for any falsy left
operand, i.e. both for `None` and for an empty list. -/
def orDefaultBudgets (gpu_split : Option (List Nat)) : List Nat :=
  match gpu_split with
  | none => [99999]
  | some [] => [99999]
  | some l => l

/-- `ExLlamaV2.load(gpu_split, lazy = False)`: plans with
`gpu_split or [99999]` (see `orDefaultBudgets`), then (eagerly) loads every
module's weights; the list of loaded module keys witnesses which weights
were loaded.  A planning failure propagates before any weight loads. -/
def load (cfg : ExLlamaV2Config) (wf sc : ExLlamaV2Module → Nat)
    (mods : List ExLlamaV2Module) (gpu_split : Option (List Nat)) :
    Except String (PlanResult × List String) :=
  match set_device_map cfg wf sc mods (orDefaultBudgets gpu_split) true with
  | Except.error e => Except.error e
  | Except.ok r => Except.ok (r, mods.map fun m => m.key)

def charsStartWith : List Char → List Char → Bool
  | _, [] => true
  | [], _ :: _ => false
  | a :: as, b :: bs => (a == b) && charsStartWith as bs

def charsContain : List Char → List Char → Bool
  | [], pat => charsStartWith [] pat
  | s@(_ :: rest), pat => charsStartWith s pat || charsContain rest pat

/-- Substring test, used to state what an error message does (not) mention. -/
def strContains (s pat : String) : Bool :=
  charsContain s.data pat.data

/-- Pointwise comparison of two `allocation_bytes` ledgers: every device's
counter in `b` is at most its counter in `a`. -/
def allocGe (a b : List Int) : Prop :=
  ∀ d, b.getD d 0 ≤ a.getD d 0

/-- Running maximum, over a list of (assigned device, scratch requirement)
pairs, of the scratch requirements assigned to device `d`, starting from
`start`. -/
def maxScratchOn (d : Nat) (pairs : List (Nat × Nat)) (start : Nat) : Nat :=
  pairs.foldl (fun acc p => if p.1 = d then max p.2 acc else acc) start

/-- `fun m x k => Except.ok (mfok m x k)`: a module-forward behaviour that
never raises (the backend succeeds on every unit). -/
def okMf {α : Type} (mfok : ExLlamaV2Module → α → Option AttnMask → α) :
    ExLlamaV2Module → α → Option AttnMask → Except String α :=
  fun m x k => Except.ok (mfok m x k)

/-- The `for idx, module in enumerate(self.modules)` loop of
`ExLlamaV2.forward`.  `mf` is the opaque per-unit compute (which may raise),
`devOf` the planned `device_idx` of each unit (-1 = cpu).  On a device change
to a non-cpu device the attention mask is rebuilt for that device; then the
unit's forward runs (the activation transfer `x.to(device)` does not change
the activation value and is not modelled).  With `preprocess_only` set, the
loop discards the activation and stops right after the unit at index `lk`
(= `self.last_kv_layer_idx`).  Returns the final activation (`none` when
stopped early) together with the keys of the units that executed. -/
def forwardLoop {α : Type} (mf : ExLlamaV2Module → α → Option AttnMask → Except String α)
    (devOf : ExLlamaV2Module → Int) (lk batch_size seq_len past_len : Nat)
    (imf : Option (Nat → Nat → Bool)) (preprocess_only : Bool) :
    Nat → List ExLlamaV2Module → α → Option Int → Option AttnMask →
    Except String (Option α × List String)
  | _, [], x, _, _ => Except.ok (some x, [])
  | idx, m :: rest, x, prev_device, attn_mask =>
    let device := devOf m
    let st :=
      if some device ≠ prev_device ∧ device ≠ -1 then
        (some device, build_attn_mask batch_size seq_len past_len imf)
      else (prev_device, attn_mask)
    match mf m x st.2 with
    | Except.error e => Except.error e
    | Except.ok x' =>
      if preprocess_only ∧ idx = lk then Except.ok (none, [m.key])
      else
        match forwardLoop mf devOf lk batch_size seq_len past_len imf
            preprocess_only (idx + 1) rest x' st.1 st.2 with
        | Except.error e => Except.error e
        | Except.ok (out, tr) => Except.ok (out, m.key :: tr)

/-- `ExLlamaV2.forward(input_ids, cache, input_mask, preprocess_only)`.
The activation is abstract (`α`); the token batch shape is passed alongside.
The input mask carries its torch shape plus its boolean entries, and the
leading assert rejects a shape that differs from the token-id shape.  The
result is the pair of (what the call returns, or the exception it raises) and
the cache length cursor after the call: the cursor is advanced by `seq_len`
only after the loop completes (normally or via the early stop). -/
def forward {α : Type} (mf : ExLlamaV2Module → α → Option AttnMask → Except String α)
    (devOf : ExLlamaV2Module → Int) (mods : List ExLlamaV2Module) (lk : Nat)
    (batch_size seq_len : Nat) (x0 : α) (cache : Option Nat)
    (input_mask : Option ((Nat × Nat) × (Nat → Nat → Bool)))
    (preprocess_only : Bool) :
    Except String (Option α × List String) × Option Nat :=
  let shape_ok :=
    match input_mask with
    | none => true
    | some im => im.1 == (batch_size, seq_len)
  if shape_ok then
    let past_len := match cache with | none => 0 | some c => c
    match forwardLoop mf devOf lk batch_size seq_len past_len
        (input_mask.map Prod.snd) preprocess_only 0 mods x0 none none with
    | Except.error e => (Except.error e, cache)
    | Except.ok r =>
      (Except.ok r, match cache with | none => none | some c => some (c + seq_len))
  else
    (Except.error "input mask shape mismatch", cache)

deriving instance DecidableEq for Except

/- ------------------------------------------------------------------ -/
/- Helper lemmas.                                                      -/
/- ------------------------------------------------------------------ -/

theorem forwardLoop_cons {α : Type}
    (mf : ExLlamaV2Module → α → Option AttnMask → Except String α)
    (devOf : ExLlamaV2Module → Int) (lk b s p : Nat)
    (imf : Option (Nat → Nat → Bool)) (pre : Bool) (idx : Nat)
    (m : ExLlamaV2Module) (rest : List ExLlamaV2Module) (x : α)
    (prev : Option Int) (msk : Option AttnMask) :
    forwardLoop mf devOf lk b s p imf pre idx (m :: rest) x prev msk =
      (let st :=
        if some (devOf m) ≠ prev ∧ devOf m ≠ -1 then
          (some (devOf m), build_attn_mask b s p imf)
        else (prev, msk)
       match mf m x st.2 with
       | Except.error e => Except.error e
       | Except.ok x' =>
         if pre ∧ idx = lk then Except.ok (none, [m.key])
         else
           match forwardLoop mf devOf lk b s p imf pre (idx + 1) rest x' st.1 st.2 with
           | Except.error e => Except.error e
           | Except.ok (out, tr) => Except.ok (out, m.key :: tr)) := rfl

/-- With a backend that succeeds on every unit and `preprocess_only` set,
the loop executes exactly the units at indices `idx .. lk`, discards the
activation and reports the keys of the executed units. -/
theorem forwardLoop_stop {α : Type}
    (mfok : ExLlamaV2Module → α → Option AttnMask → α)
    (devOf : ExLlamaV2Module → Int) (lk b s p : Nat)
    (imf : Option (Nat → Nat → Bool)) :
    ∀ (rest : List ExLlamaV2Module) (idx : Nat) (x : α) (prev : Option Int)
      (msk : Option AttnMask), idx ≤ lk → lk < idx + rest.length →
      forwardLoop (okMf mfok) devOf lk b s p imf true idx rest x prev msk =
        Except.ok (none, (rest.take (lk + 1 - idx)).map fun u => u.key) := by
  intro rest
  induction rest with
  | nil =>
    intro idx x prev msk h1 h2
    simp at h2
    omega
  | cons m rest' ih =>
    intro idx x prev msk h1 h2
    rw [forwardLoop_cons]
    simp only [okMf]
    by_cases he : idx = lk
    · subst he
      rw [if_pos ⟨trivial, rfl⟩]
      have ht : idx + 1 - idx = 1 := by omega
      rw [ht, List.take_succ_cons, List.take_zero]
      rfl
    · rw [if_neg (fun hc => he hc.2)]
      rw [ih (idx + 1) _ _ _ (by omega) (by simp at h2 ⊢; omega)]
      have ht : lk + 1 - idx = (lk + 1 - (idx + 1)) + 1 := by omega
      rw [ht, List.take_succ_cons]
      rfl

/-- With a backend that succeeds on every unit the loop never raises. -/
theorem forwardLoop_ok {α : Type}
    (mfok : ExLlamaV2Module → α → Option AttnMask → α)
    (devOf : ExLlamaV2Module → Int) (lk b s p : Nat)
    (imf : Option (Nat → Nat → Bool)) (pre : Bool) :
    ∀ (rest : List ExLlamaV2Module) (idx : Nat) (x : α) (prev : Option Int)
      (msk : Option AttnMask),
      ∃ r, forwardLoop (okMf mfok) devOf lk b s p imf pre idx rest x prev msk =
        Except.ok r := by
  intro rest
  induction rest with
  | nil => intro idx x prev msk; exact ⟨_, rfl⟩
  | cons m rest' ih =>
    intro idx x prev msk
    rw [forwardLoop_cons]
    simp only [okMf]
    by_cases hc : (pre = true) ∧ idx = lk
    · rw [if_pos hc]
      exact ⟨_, rfl⟩
    · rw [if_neg hc]
      obtain ⟨⟨out, tr⟩, hr⟩ := ih (idx + 1)
        (mfok m x (if some (devOf m) ≠ prev ∧ devOf m ≠ -1 then
          (some (devOf m), build_attn_mask b s p imf) else (prev, msk)).2)
        (if some (devOf m) ≠ prev ∧ devOf m ≠ -1 then
          (some (devOf m), build_attn_mask b s p imf) else (prev, msk)).1
        (if some (devOf m) ≠ prev ∧ devOf m ≠ -1 then
          (some (devOf m), build_attn_mask b s p imf) else (prev, msk)).2
      rw [hr]
      exact ⟨_, rfl⟩

/-- For a single-token step (`seq_len = 1`) every rebuilt attention mask is
`None`, so the loop's behaviour does not depend on the input mask at all:
it equals the run with no input mask in which every unit is handed
`attn_mask = None`. -/
theorem forwardLoop_seq1 {α : Type}
    (mf : ExLlamaV2Module → α → Option AttnMask → Except String α)
    (devOf : ExLlamaV2Module → Int) (lk b p : Nat)
    (imf : Option (Nat → Nat → Bool)) (pre : Bool) :
    ∀ (rest : List ExLlamaV2Module) (idx : Nat) (x : α) (prev : Option Int),
      forwardLoop mf devOf lk b 1 p imf pre idx rest x prev none =
        forwardLoop (fun u y _ => mf u y none) devOf lk b 1 p none pre idx rest x prev none := by
  intro rest
  induction rest with
  | nil => intro idx x prev; rfl
  | cons m rest' ih =>
    intro idx x prev
    rw [forwardLoop_cons, forwardLoop_cons]
    have hmask : ∀ im, build_attn_mask b 1 p im = none := by
      intro im
      simp [build_attn_mask]
    by_cases hc : some (devOf m) ≠ prev ∧ devOf m ≠ -1
    · rw [if_pos hc, if_pos hc]
      simp only [hmask]
      cases mf m x none with
      | error e => rfl
      | ok x' =>
        dsimp only
        by_cases hs : (pre = true) ∧ idx = lk
        · rw [if_pos hs, if_pos hs]
        · rw [if_neg hs, if_neg hs, ih (idx + 1) x' (some (devOf m))]
    · rw [if_neg hc, if_neg hc]
      dsimp only
      cases mf m x none with
      | error e => rfl
      | ok x' =>
        dsimp only
        by_cases hs : (pre = true) ∧ idx = lk
        · rw [if_pos hs, if_pos hs]
        · rw [if_neg hs, if_neg hs, ih (idx + 1) x' prev]

theorem findDeviceAux_spec (fp sc : Nat) (reserve : List Nat) (l : List Int) :
    ∀ (i d ds : Nat), findDeviceAux fp sc reserve l i = Except.ok (d, ds) →
      i ≤ d ∧ d < i + l.length ∧ ds = max sc (reserve.getD d 0) := by
  induction l with
  | nil => intro i d ds h; simp [findDeviceAux] at h
  | cons ab rest ih =>
    intro i d ds h
    rw [findDeviceAux] at h
    split at h
    · obtain ⟨rfl, rfl⟩ : i = d ∧ max sc (reserve.getD i 0) = ds := by
        constructor <;> [skip; skip] <;> cases h <;> rfl
      refine ⟨Nat.le_refl _, by simp, rfl⟩
    · obtain ⟨h1, h2, h3⟩ := ih (i + 1) d ds h
      exact ⟨by omega, by simp; omega, h3⟩

theorem findDeviceAux_error (fp sc : Nat) (reserve : List Nat) (l : List Int) :
    ∀ (i : Nat) (e : String), findDeviceAux fp sc reserve l i = Except.error e →
      e = "Insufficient space in device allocation" := by
  induction l with
  | nil =>
    intro i e h
    rw [findDeviceAux] at h
    cases h
    rfl
  | cons ab rest ih =>
    intro i e h
    rw [findDeviceAux] at h
    split at h
    · cases h
    · exact ih (i + 1) e h

theorem findDevice_spec (fp sc : Nat) (alloc : List Int) (reserve : List Nat)
    (cur d ds : Nat) (h : findDevice fp sc alloc reserve cur = Except.ok (d, ds)) :
    cur ≤ d ∧ d < alloc.length ∧ ds = max sc (reserve.getD d 0) := by
  obtain ⟨h1, h2, h3⟩ := findDeviceAux_spec fp sc reserve (alloc.drop cur) cur d ds h
  rw [List.length_drop] at h2
  exact ⟨h1, by omega, h3⟩

theorem findDevice_error (fp sc : Nat) (alloc : List Int) (reserve : List Nat)
    (cur : Nat) (e : String) (h : findDevice fp sc alloc reserve cur = Except.error e) :
    e = "Insufficient space in device allocation" :=
  findDeviceAux_error fp sc reserve (alloc.drop cur) cur e h

theorem packModules_cons (wf sc : ExLlamaV2Module → Nat) (m : ExLlamaV2Module)
    (rest : List ExLlamaV2Module) (alloc : List Int) (reserve : List Nat) (cur : Nat) :
    packModules wf sc (m :: rest) alloc reserve cur =
      (match findDevice (wf m) (sc m) alloc reserve cur with
       | Except.error e => Except.error e
       | Except.ok (dev, dev_scratch) =>
         (match packModules wf sc rest (alloc.set dev (alloc.getD dev 0 - (wf m : Int)))
             (reserve.set dev dev_scratch) dev with
          | Except.error e => Except.error e
          | Except.ok r =>
            Except.ok ⟨dev :: r.devices, r.allocation_bytes, r.reserve_bytes, r.current_idx,
              (alloc.set dev (alloc.getD dev 0 - (wf m : Int))) :: r.alloc_trace⟩)) := rfl

theorem packModules_chain (wf sc : ExLlamaV2Module → Nat) :
    ∀ (mods : List ExLlamaV2Module) (alloc : List Int) (reserve : List Nat)
      (cur : Nat) (r : PackResult),
      packModules wf sc mods alloc reserve cur = Except.ok r →
      List.Chain (· ≤ ·) cur r.devices := by
  intro mods
  induction mods with
  | nil =>
    intro alloc reserve cur r h
    rw [packModules] at h
    cases h
    exact List.Chain.nil
  | cons m rest ih =>
    intro alloc reserve cur r h
    rw [packModules_cons] at h
    split at h
    · cases h
    · next dev ds hfd =>
      split at h
      · cases h
      · next r' hrec =>
        cases h
        exact List.Chain.cons (findDevice_spec _ _ _ _ _ _ _ hfd).1 (ih _ _ _ _ hrec)

theorem layer_units_length (n : Nat) : (layer_units n).length = 2 * n := by
  induction n with
  | zero => rfl
  | succ k ih =>
    rw [layer_units, List.length_append, ih]
    simp
    omega

theorem layer_units_getElem (n i : Nat) (hi : i < n) :
    (layer_units n)[2 * i]? = some (attnUnit i) ∧
      (layer_units n)[2 * i + 1]? = some (mlpUnit i) := by
  induction n with
  | zero => omega
  | succ k ih =>
    rcases Nat.lt_succ_iff_lt_or_eq.mp hi with h | rfl
    · obtain ⟨h1, h2⟩ := ih h
      have hl1 : 2 * i < (layer_units k).length := by rw [layer_units_length]; omega
      have hl2 : 2 * i + 1 < (layer_units k).length := by rw [layer_units_length]; omega
      rw [layer_units, List.getElem?_append_left hl1, List.getElem?_append_left hl2]
      exact ⟨h1, h2⟩
    · have hl : (layer_units i).length = 2 * i := layer_units_length i
      constructor
      · rw [layer_units, List.getElem?_append_right (by omega)]
        simp [hl]
      · rw [layer_units, List.getElem?_append_right (by omega)]
        simp [hl]

theorem layer_units_not_linear (n : Nat) :
    ∀ m ∈ layer_units n, is_linear m = false := by
  induction n with
  | zero => intro m hm; simp [layer_units] at hm
  | succ k ih =>
    intro m hm
    rw [layer_units] at hm
    rcases List.mem_append.mp hm with h | h
    · exact ih m h
    · simp only [List.mem_cons, List.not_mem_nil, or_false] at h
      rcases h with rfl | rfl <;> rfl

theorem lastAttnFrom_spec (mods : List ExLlamaV2Module) :
    ∀ (n i : Nat), lastAttnFrom mods n = some i →
      i < n ∧ is_attn (mods.getD i defaultUnit) = true := by
  intro n
  induction n with
  | zero => intro i h; cases h
  | succ k ih =>
    intro i h
    rw [lastAttnFrom] at h
    split at h
    · next ha =>
      cases h
      exact ⟨Nat.lt_succ_self _, ha⟩
    · obtain ⟨h1, h2⟩ := ih i h
      exact ⟨by omega, h2⟩

def frontModules (cfg : ExLlamaV2Config) : List ExLlamaV2Module :=
  embedUnit :: (layer_units cfg.num_hidden_layers ++ [modelNormUnit])

theorem buildModules_eq_front (cfg : ExLlamaV2Config) :
    buildModules cfg = frontModules cfg ++ [lmHeadUnit cfg] := by
  simp [buildModules, frontModules]

theorem frontModules_length (cfg : ExLlamaV2Config) :
    (frontModules cfg).length = 2 * cfg.num_hidden_layers + 2 := by
  simp [frontModules, layer_units_length]

theorem frontModules_not_linear (cfg : ExLlamaV2Config) :
    ∀ m ∈ frontModules cfg, is_linear m = false := by
  intro m hm
  rw [frontModules, List.mem_cons] at hm
  rcases hm with rfl | hm
  · rfl
  · rcases List.mem_append.mp hm with h | h
    · exact layer_units_not_linear _ m h
    · simp only [List.mem_singleton] at h
      rw [h]
      rfl

theorem getD_append_last {α : Type} (l : List α) (x d : α) :
    (l ++ [x]).getD l.length d = x := by
  rw [List.getD_eq_getElem?_getD, List.getElem?_append_right (Nat.le_refl _)]
  simp

theorem getD_set_le (l : List Int) (dev : Nat) (v : Int) (hv : v ≤ l.getD dev 0)
    (d : Nat) : (l.set dev v).getD d 0 ≤ l.getD d 0 := by
  by_cases hd : d = dev
  · subst hd
    by_cases hl : d < l.length
    · rw [List.getD_eq_getElem?_getD, List.getElem?_set_self hl]
      exact hv
    · rw [List.set_eq_of_length_le (by omega)]
  · rw [List.getD_eq_getElem?_getD, List.getElem?_set_ne (fun he => hd he.symm),
      ← List.getD_eq_getElem?_getD]

theorem getD_set_self_lt {α : Type} [Inhabited α] (l : List α) (dev : Nat) (v d0 : α)
    (hl : dev < l.length) : (l.set dev v).getD dev d0 = v := by
  rw [List.getD_eq_getElem?_getD, List.getElem?_set_self hl]
  rfl

theorem getD_set_other {α : Type} (l : List α) (dev d : Nat) (v d0 : α)
    (hd : d ≠ dev) : (l.set dev v).getD d d0 = l.getD d d0 := by
  rw [List.getD_eq_getElem?_getD, List.getElem?_set_ne (fun he => hd he.symm),
    ← List.getD_eq_getElem?_getD]

/-- Each placement only ever subtracts a (non-negative) footprint from one
device's counter, so each snapshot is pointwise at most its predecessor, and
the final ledger is the last snapshot (or the input ledger when no unit was
packed). -/
theorem packModules_trace (wf sc : ExLlamaV2Module → Nat) :
    ∀ (mods : List ExLlamaV2Module) (alloc : List Int) (reserve : List Nat)
      (cur : Nat) (r : PackResult),
      packModules wf sc mods alloc reserve cur = Except.ok r →
      List.Chain allocGe alloc r.alloc_trace ∧
        r.allocation_bytes = r.alloc_trace.getLastD alloc := by
  intro mods
  induction mods with
  | nil =>
    intro alloc reserve cur r h
    rw [packModules] at h
    cases h
    exact ⟨List.Chain.nil, rfl⟩
  | cons m rest ih =>
    intro alloc reserve cur r h
    rw [packModules_cons] at h
    split at h
    · cases h
    · next dev ds hfd =>
      split at h
      · cases h
      · next r' hrec =>
        cases h
        obtain ⟨hch, hlast⟩ := ih _ _ _ _ hrec
        refine ⟨List.Chain.cons ?_ hch, ?_⟩
        · intro d
          exact getD_set_le _ _ _ (by omega) d
        · rw [List.getLastD_cons]
          exact hlast

theorem packModules_lengths (wf sc : ExLlamaV2Module → Nat) :
    ∀ (mods : List ExLlamaV2Module) (alloc : List Int) (reserve : List Nat)
      (cur : Nat) (r : PackResult),
      packModules wf sc mods alloc reserve cur = Except.ok r →
      r.allocation_bytes.length = alloc.length ∧
        r.reserve_bytes.length = reserve.length := by
  intro mods
  induction mods with
  | nil =>
    intro alloc reserve cur r h
    rw [packModules] at h
    cases h
    exact ⟨rfl, rfl⟩
  | cons m rest ih =>
    intro alloc reserve cur r h
    rw [packModules_cons] at h
    split at h
    · cases h
    · next dev ds hfd =>
      split at h
      · cases h
      · next r' hrec =>
        cases h
        obtain ⟨h1, h2⟩ := ih _ _ _ _ hrec
        simp only [List.length_set] at h1 h2
        exact ⟨h1, h2⟩

/-- The final `reserve_bytes` entry of each device is the running maximum of
the scratch requirements of the units assigned to it, joined with whatever
the ledger already recorded for that device on entry. -/
theorem packModules_reserve (wf sc : ExLlamaV2Module → Nat) :
    ∀ (mods : List ExLlamaV2Module) (alloc : List Int) (reserve : List Nat)
      (cur : Nat) (r : PackResult),
      packModules wf sc mods alloc reserve cur = Except.ok r →
      reserve.length = alloc.length →
      ∀ d, r.reserve_bytes.getD d 0 =
        maxScratchOn d (r.devices.zip (mods.map sc)) (reserve.getD d 0) := by
  intro mods
  induction mods with
  | nil =>
    intro alloc reserve cur r h hlen d
    rw [packModules] at h
    cases h
    rfl
  | cons m rest ih =>
    intro alloc reserve cur r h hlen d
    rw [packModules_cons] at h
    split at h
    · cases h
    · next dev ds hfd =>
      split at h
      · cases h
      · next r' hrec =>
        cases h
        obtain ⟨hcur, hdevlt, hds⟩ := findDevice_spec _ _ _ _ _ _ _ hfd
        have hdevres : dev < reserve.length := by omega
        have hlen' : (reserve.set dev ds).length =
            (alloc.set dev (alloc.getD dev 0 - (wf m : Int))).length := by
          simp only [List.length_set]; exact hlen
        have hih := ih _ _ _ _ hrec hlen' d
        simp only [List.map_cons, List.zip_cons_cons, maxScratchOn, List.foldl_cons]
        rw [hih]
        by_cases hd : dev = d
        · subst hd
          rw [if_pos rfl, getD_set_self_lt _ _ _ _ hdevres, hds]
          rfl
        · rw [if_neg hd, getD_set_other _ _ _ _ _ (fun he => hd he.symm)]
          rfl

theorem packModules_error (wf sc : ExLlamaV2Module → Nat) :
    ∀ (mods : List ExLlamaV2Module) (alloc : List Int) (reserve : List Nat)
      (cur : Nat) (e : String),
      packModules wf sc mods alloc reserve cur = Except.error e →
      e = "Insufficient space in device allocation" := by
  intro mods
  induction mods with
  | nil => intro alloc reserve cur e h; rw [packModules] at h; cases h
  | cons m rest ih =>
    intro alloc reserve cur e h
    rw [packModules_cons] at h
    split at h
    · next e' hfd =>
      cases h
      exact findDevice_error _ _ _ _ _ _ hfd
    · next dev ds hfd =>
      split at h
      · next e' hrec =>
        cases h
        exact ih _ _ _ _ hrec
      · cases h

theorem set_device_map_cons_true (cfg : ExLlamaV2Config)
    (wf sc : ExLlamaV2Module → Nat) (m0 : ExLlamaV2Module)
    (rest : List ExLlamaV2Module) (alloc : List Nat) :
    set_device_map cfg wf sc (m0 :: rest) alloc true =
      (match packModules wf sc rest (initial_allocation_bytes cfg alloc)
          (alloc.map fun _ => 0) 0 with
       | Except.error e => Except.error e
       | Except.ok r =>
         Except.ok (mkPlanResult ((-1) :: r.devices.map Int.ofNat) r)) := rfl

theorem set_device_map_nil_true (cfg : ExLlamaV2Config)
    (wf sc : ExLlamaV2Module → Nat) (alloc : List Nat) :
    set_device_map cfg wf sc [] alloc true =
      Except.ok (mkPlanResult []
        ⟨[], initial_allocation_bytes cfg alloc, alloc.map fun _ => 0, 0, []⟩) := rfl

theorem set_device_map_false (cfg : ExLlamaV2Config)
    (wf sc : ExLlamaV2Module → Nat) (mods : List ExLlamaV2Module)
    (alloc : List Nat) :
    set_device_map cfg wf sc mods alloc false =
      (match packModules wf sc mods (initial_allocation_bytes cfg alloc)
          (alloc.map fun _ => 0) 0 with
       | Except.error e => Except.error e
       | Except.ok r => Except.ok (mkPlanResult (r.devices.map Int.ofNat) r)) := by
  cases mods <;> rfl

theorem chain'_ofNat_of_chain (ds : List Nat) (hch : List.Chain (· ≤ ·) 0 ds) :
    List.Chain' (· ≤ ·) (ds.map Int.ofNat) := by
  cases ds with
  | nil => simp
  | cons d ds' =>
    obtain ⟨-, hch'⟩ := List.chain_cons.mp hch
    rw [List.map_cons]
    show List.Chain (· ≤ ·) (Int.ofNat d) (ds'.map Int.ofNat)
    exact (List.chain_map Int.ofNat).mpr (hch'.imp fun a b hab => Int.ofNat_le.mpr hab)

/- ------------------------------------------------------------------ -/
/- Concrete fixtures used by witnesses and counterexamples.            -/
/- ------------------------------------------------------------------ -/

def cfgZero : ExLlamaV2Config := ⟨0, 0, 0, 0, 0, 0, 0⟩

def cfgOne : ExLlamaV2Config := ⟨8, 1, 4, 16, 8, 8, 1⟩

def cfgTwo : ExLlamaV2Config := ⟨8, 2, 4, 16, 8, 8, 1⟩

def wfZero : ExLlamaV2Module → Nat := fun _ => 0

def scZero : ExLlamaV2Module → Nat := fun _ => 0

def wfK : ExLlamaV2Module → Nat := fun _ => 1024

def scK : ExLlamaV2Module → Nat := fun m => if is_attn m then 300 else 100

def wfBig : ExLlamaV2Module → Nat := fun _ => 1000000

/- ------------------------------------------------------------------ -/
/- Claims.                                                             -/
/- ------------------------------------------------------------------ -/

/-- Claim C1, amended: for every batch_size, seq_len > 1, past_len, with no
input mask supplied, `build_attn_mask` returns an additive bias tensor of
shape batch_size × 1 × seq_len × (past_len + seq_len) whose entry
[bi, 0, i, past_len+1+j] equals -65504 exactly when i ≤ j (on or above the
diagonal) within the (seq_len-1) × (seq_len-1) triangular block, and 0 at
every position outside that block; for seq_len = 1 the result is absent.
(The claim's original condition was j < i; the code's `torch.triu` keeps the
upper half, so the correct condition is j ≥ i.) -/
theorem c1_attn_mask_triangle (b s p i j bi hh i2 k : Nat) (hs : 1 < s)
    (hi : i < s - 1) (hj : j < s - 1)
    (hout : ¬(i2 < s - 1 ∧ p + 1 ≤ k ∧ k < p + s ∧ p + 1 + i2 ≤ k)) :
    (build_attn_mask b s p none).map AttnMask.shape = some [b, 1, s, p + s] ∧
    ((build_attn_mask b s p none).map (fun am => am.entry bi 0 i (p + 1 + j)) =
        some (-65504) ↔ i ≤ j) ∧
    (build_attn_mask b s p none).map (fun am => am.entry bi hh i2 k) = some 0 ∧
    build_attn_mask b 1 p none = none := by
  have e1 : build_attn_mask b s p none = some ⟨[b, 1, s, p + s],
      fun _ _ i k => if i < s - 1 ∧ p + 1 ≤ k ∧ k < p + s ∧ i ≤ k - (p + 1)
        then -65504 else 0⟩ := by
    rw [build_attn_mask, if_pos hs]
  refine ⟨?_, ?_, ?_, ?_⟩
  · rw [e1]
    rfl
  · rw [e1]
    simp only [Option.map_some', Option.some.injEq]
    have hcond : (i < s - 1 ∧ p + 1 ≤ p + 1 + j ∧ p + 1 + j < p + s ∧
        i ≤ p + 1 + j - (p + 1)) ↔ i ≤ j := by omega
    rw [if_congr hcond rfl rfl]
    by_cases hij : i ≤ j <;> simp [hij]
  · rw [e1]
    simp only [Option.map_some', Option.some.injEq]
    rw [if_neg]
    intro hc
    obtain ⟨a1, a2, a3, a4⟩ := hc
    exact hout ⟨a1, a2, a3, by omega⟩
  · rw [build_attn_mask, if_neg (by omega)]

theorem c1_attn_mask_triangle_witness :
    (build_attn_mask 1 3 2 none).map AttnMask.shape = some [1, 1, 3, 2 + 3] ∧
    ((build_attn_mask 1 3 2 none).map (fun am => am.entry 0 0 1 (2 + 1 + 1)) =
        some (-65504) ↔ 1 ≤ 1) ∧
    (build_attn_mask 1 3 2 none).map (fun am => am.entry 0 0 0 1) = some 0 ∧
    build_attn_mask 1 1 2 none = none :=
  c1_attn_mask_triangle 1 3 2 1 1 0 0 0 1 (by norm_num) (by norm_num)
    (by norm_num) (by omega)

/-- Claim C1 as stated is false on the code: with batch_size = 1, seq_len = 2,
past_len = 0, at block position i = 0, j = 0 (where j < i fails) the entry is
-65504 rather than 0, and with seq_len = 3 at block position i = 1, j = 0
(where j < i holds) the entry is 0 rather than -65504: the triangle is the
upper one (j ≥ i), not the lower one. -/
theorem c1_attn_mask_cex :
    (build_attn_mask 1 2 0 none).map (fun am => am.entry 0 0 0 (0 + 1 + 0)) =
      some (-65504) ∧
    ¬((0 : Nat) < 0) ∧
    (build_attn_mask 1 3 0 none).map (fun am => am.entry 0 0 1 (0 + 1 + 0)) =
      some 0 ∧
    ((0 : Nat) < 1) := by
  refine ⟨by decide, by omega, by decide, by omega⟩

/-- Claim C9, amended: graph building is deterministic and ordered — one
embedding unit, then for each layer index an attention unit followed by a
feed-forward unit, then one final-normalization unit, then one
output-projection unit sized hidden_size → vocab_size with no bias — and for
a configuration with num_hidden_layers = 2 the graph has exactly 7 top-level
units before sub-unit expansion (the claim's count of 6 miscounts its own
enumeration: 1 + 2 + 2 + 1 + 1 = 7). -/
theorem c9_graph_order (cfg cfg2 : ExLlamaV2Config) (i : Nat)
    (hi : i < cfg.num_hidden_layers) (h2 : cfg2.num_hidden_layers = 2) :
    (buildModules cfg).length = 2 * cfg.num_hidden_layers + 3 ∧
    (buildModules cfg)[0]? = some embedUnit ∧
    (buildModules cfg)[2 * i + 1]? = some (attnUnit i) ∧
    (buildModules cfg)[2 * i + 2]? = some (mlpUnit i) ∧
    (buildModules cfg)[2 * cfg.num_hidden_layers + 1]? = some modelNormUnit ∧
    (buildModules cfg)[2 * cfg.num_hidden_layers + 2]? =
      some ⟨"lm_head", ModuleKind.linear cfg.hidden_size cfg.vocab_size false⟩ ∧
    (buildModules cfg2).length = 7 := by
  have hlu : (layer_units cfg.num_hidden_layers).length = 2 * cfg.num_hidden_layers :=
    layer_units_length _
  obtain ⟨hA, hM⟩ := layer_units_getElem cfg.num_hidden_layers i hi
  have hlen : ∀ c : ExLlamaV2Config, (buildModules c).length = 2 * c.num_hidden_layers + 3 := by
    intro c
    simp only [buildModules, List.length_cons, List.length_append,
      layer_units_length, List.length_nil]
  refine ⟨hlen cfg, by simp [buildModules], ?_, ?_, ?_, ?_, ?_⟩
  · rw [buildModules, List.getElem?_cons_succ,
      List.getElem?_append_left (by omega)]
    exact hA
  · have : 2 * i + 2 = (2 * i + 1) + 1 := by omega
    rw [buildModules, this, List.getElem?_cons_succ,
      List.getElem?_append_left (by omega)]
    exact hM
  · rw [buildModules, List.getElem?_cons_succ,
      List.getElem?_append_right (by omega), hlu]
    simp
  · have : 2 * cfg.num_hidden_layers + 2 = (2 * cfg.num_hidden_layers + 1) + 1 := by omega
    rw [buildModules, this, List.getElem?_cons_succ,
      List.getElem?_append_right (by omega), hlu]
    have h1 : 2 * cfg.num_hidden_layers + 1 - 2 * cfg.num_hidden_layers = 1 := by omega
    rw [h1]
    rfl
  · rw [hlen cfg2, h2]

theorem c9_graph_order_witness :
    (buildModules cfgOne).length = 2 * cfgOne.num_hidden_layers + 3 ∧
    (buildModules cfgOne)[0]? = some embedUnit ∧
    (buildModules cfgOne)[2 * 0 + 1]? = some (attnUnit 0) ∧
    (buildModules cfgOne)[2 * 0 + 2]? = some (mlpUnit 0) ∧
    (buildModules cfgOne)[2 * cfgOne.num_hidden_layers + 1]? = some modelNormUnit ∧
    (buildModules cfgOne)[2 * cfgOne.num_hidden_layers + 2]? =
      some ⟨"lm_head", ModuleKind.linear cfgOne.hidden_size cfgOne.vocab_size false⟩ ∧
    (buildModules cfgTwo).length = 7 :=
  c9_graph_order cfgOne cfgTwo 0 (by decide) (by decide)

/-- Claim C9 as stated is false on the code: for num_hidden_layers = 2 the
built graph has 7 top-level units (embedding, attention 0, feed-forward 0,
attention 1, feed-forward 1, norm, output projection), not 6. -/
theorem c9_graph_order_cex :
    (buildModules cfgTwo).length = 7 ∧ (7 : Nat) ≠ 6 := by
  exact ⟨by decide, by decide⟩

/-- Claim C2: for every device-budget list on which planning succeeds, the
device index assigned to unit i in graph order is at most the index assigned
to unit i+1, over the units that participate in packing (with `embed_cpu`
the module at index 0 is pinned to the host and excluded). -/
theorem c2_monotone_devices (cfg : ExLlamaV2Config) (wf sc : ExLlamaV2Module → Nat)
    (mods : List ExLlamaV2Module) (alloc : List Nat) (embed_cpu : Bool)
    (res : PlanResult)
    (h : set_device_map cfg wf sc mods alloc embed_cpu = Except.ok res) :
    List.Chain' (· ≤ ·)
      (if embed_cpu then res.device_map.drop 1 else res.device_map) := by
  cases embed_cpu with
  | true =>
    cases mods with
    | nil =>
      rw [set_device_map_nil_true] at h
      cases h
      simp [mkPlanResult]
    | cons m0 rest =>
      rw [set_device_map_cons_true] at h
      cases hp : packModules wf sc rest (initial_allocation_bytes cfg alloc)
          (alloc.map fun _ => 0) 0 with
      | error e => rw [hp] at h; cases h
      | ok r =>
        rw [hp] at h
        cases h
        simp only [mkPlanResult, List.drop_succ_cons, List.drop_zero, if_true]
        exact chain'_ofNat_of_chain _ (packModules_chain wf sc _ _ _ _ _ hp)
  | false =>
    rw [set_device_map_false] at h
    cases hp : packModules wf sc mods (initial_allocation_bytes cfg alloc)
        (alloc.map fun _ => 0) 0 with
    | error e => rw [hp] at h; cases h
    | ok r =>
      rw [hp] at h
      cases h
      simp only [mkPlanResult, Bool.false_eq_true, if_false]
      exact chain'_ofNat_of_chain _ (packModules_chain wf sc _ _ _ _ _ hp)

theorem c2_monotone_devices_witness :
    set_device_map cfgOne wfK scK (buildModules cfgOne) [1] true = Except.ok
      { device_map := [-1, 0, 0, 0, 0], allocation_bytes := [1073737344],
        reserve_bytes := [300],
        alloc_trace := [[1073740416], [1073739392], [1073738368], [1073737344]],
        device_tensors := [⟨0, 300, 0, false, false⟩] } ∧
    List.Chain' (· ≤ ·)
      (if true then
        (({ device_map := [-1, 0, 0, 0, 0], allocation_bytes := [1073737344],
            reserve_bytes := [300],
            alloc_trace := [[1073740416], [1073739392], [1073738368], [1073737344]],
            device_tensors := [⟨0, 300, 0, false, false⟩] : PlanResult }).device_map.drop 1)
       else
        ({ device_map := [-1, 0, 0, 0, 0], allocation_bytes := [1073737344],
           reserve_bytes := [300],
           alloc_trace := [[1073740416], [1073739392], [1073738368], [1073737344]],
           device_tensors := [⟨0, 300, 0, false, false⟩] : PlanResult }).device_map) :=
  ⟨by decide,
   c2_monotone_devices cfgOne wfK scK (buildModules cfgOne) [1] true _ (by decide)⟩

/-- Claim C3, amended: whenever the planner's cursor advances past the last
device while placing a unit, planning fails fatally before any weights load
or compute runs — for a nonempty budget list, `load` hands exactly that list
to the planner (Python's `gpu_split or [99999]` only replaces `None` or an
empty list) and propagates the planning error, loading nothing — but the
failure message is the fixed assert string
"Insufficient space in device allocation"; it includes neither the offending
unit's key nor its footprint. -/
theorem c3_alloc_exhausted (cfg : ExLlamaV2Config) (wf sc : ExLlamaV2Module → Nat)
    (mods : List ExLlamaV2Module) (alloc : List Nat) (e : String)
    (h : set_device_map cfg wf sc mods alloc true = Except.error e)
    (hne : alloc ≠ []) :
    e = "Insufficient space in device allocation" ∧
    load cfg wf sc mods (some alloc) = Except.error e := by
  have he : e = "Insufficient space in device allocation" := by
    cases mods with
    | nil => rw [set_device_map_nil_true] at h; cases h
    | cons m0 rest =>
      rw [set_device_map_cons_true] at h
      cases hp : packModules wf sc rest (initial_allocation_bytes cfg alloc)
          (alloc.map fun _ => 0) 0 with
      | error e2 =>
        rw [hp] at h
        cases h
        exact packModules_error wf sc _ _ _ _ _ hp
      | ok r => rw [hp] at h; cases h
  refine ⟨he, ?_⟩
  cases alloc with
  | nil => exact absurd rfl hne
  | cons a rest2 =>
    rw [load]
    have hod : orDefaultBudgets (some (a :: rest2)) = a :: rest2 := rfl
    rw [hod, h]

theorem c3_alloc_exhausted_witness :
    ("Insufficient space in device allocation" : String) =
      "Insufficient space in device allocation" ∧
    load cfgZero wfBig scZero [embedUnit, attnUnit 0] (some [0]) =
      Except.error "Insufficient space in device allocation" :=
  c3_alloc_exhausted cfgZero wfBig scZero [embedUnit, attnUnit 0] [0] _ (by decide)
    (by decide)

/-- Claim C3 as stated is false on the code: at this concrete input the
cursor runs past the single device (budget 0 GB cannot hold the unit with
key "model.layers.0" and footprint 1000000 bytes), planning fails fatally,
but the failure message includes neither the offending unit's key nor its
footprint — it is the fixed string of the assert. -/
theorem c3_alloc_exhausted_cex :
    set_device_map cfgZero wfBig scZero [embedUnit, attnUnit 0] [0] true =
      Except.error "Insufficient space in device allocation" ∧
    ([embedUnit, attnUnit 0] : List ExLlamaV2Module)[1]? =
      some ⟨"model.layers.0", ModuleKind.attention 0⟩ ∧
    wfBig ⟨"model.layers.0", ModuleKind.attention 0⟩ = 1000000 ∧
    strContains "Insufficient space in device allocation" "model.layers.0" = false ∧
    strContains "Insufficient space in device allocation" "1000000" = false := by
  refine ⟨by decide, by decide, by decide, by decide, by decide⟩

/-- Claim C7: throughout planning each device's remaining-byte counter is
monotonically non-increasing as units are assigned (the successive
`allocation_bytes` snapshots form a pointwise non-increasing chain from the
initial ledger, and the final ledger is the last snapshot); after planning,
device `d`'s reserved-scratch value is the maximum — not the sum — of the
scratch requirements of the units assigned to `d`; and the
`ExLlamaV2DeviceTensors` instance of each device is created with exactly its
reserved-scratch value. -/
theorem c7_ledger_invariants (cfg : ExLlamaV2Config)
    (wf sc : ExLlamaV2Module → Nat) (m0 : ExLlamaV2Module)
    (rest : List ExLlamaV2Module) (alloc : List Nat) (res : PlanResult) (d : Nat)
    (h : set_device_map cfg wf sc (m0 :: rest) alloc true = Except.ok res) :
    List.Chain allocGe (initial_allocation_bytes cfg alloc) res.alloc_trace ∧
    res.allocation_bytes = res.alloc_trace.getLastD (initial_allocation_bytes cfg alloc) ∧
    res.reserve_bytes.getD d 0 =
      maxScratchOn d (((res.device_map.drop 1).map Int.toNat).zip (rest.map sc)) 0 ∧
    res.device_tensors = res.reserve_bytes.enum.map fun p => initDeviceTensors p.1 p.2 := by
  rw [set_device_map_cons_true] at h
  cases hp : packModules wf sc rest (initial_allocation_bytes cfg alloc)
      (alloc.map fun _ => 0) 0 with
  | error e => rw [hp] at h; cases h
  | ok r =>
    rw [hp] at h
    cases h
    obtain ⟨hch, hlast⟩ := packModules_trace wf sc _ _ _ _ _ hp
    have hres := packModules_reserve wf sc _ _ _ _ _ hp
      (by rw [initial_allocation_bytes, List.length_map, List.length_map]) d
    refine ⟨hch, hlast, ?_, rfl⟩
    simp only [mkPlanResult, List.drop_succ_cons, List.drop_zero]
    have hmm : (r.devices.map Int.ofNat).map Int.toNat = r.devices := by
      rw [List.map_map]
      simp [Function.comp_def]
    rw [hmm, hres]
    have hz : ((alloc.map fun _ => (0 : Nat))).getD d 0 = 0 := by
      rw [List.getD_eq_getElem?_getD, List.getElem?_map]
      cases alloc[d]? <;> rfl
    rw [hz]

def planResOne : PlanResult :=
  { device_map := [-1, 0, 0, 0, 0], allocation_bytes := [1073737344],
    reserve_bytes := [300],
    alloc_trace := [[1073740416], [1073739392], [1073738368], [1073737344]],
    device_tensors := [⟨0, 300, 0, false, false⟩] }

theorem c7_ledger_invariants_witness :
    List.Chain allocGe (initial_allocation_bytes cfgOne [1]) planResOne.alloc_trace ∧
    planResOne.allocation_bytes =
      planResOne.alloc_trace.getLastD (initial_allocation_bytes cfgOne [1]) ∧
    planResOne.reserve_bytes.getD 0 0 =
      maxScratchOn 0 (((planResOne.device_map.drop 1).map Int.toNat).zip
        ([attnUnit 0, mlpUnit 0, modelNormUnit, lmHeadUnit cfgOne].map scK)) 0 ∧
    planResOne.device_tensors =
      planResOne.reserve_bytes.enum.map fun p => initDeviceTensors p.1 p.2 :=
  c7_ledger_invariants cfgOne wfK scK embedUnit
    [attnUnit 0, mlpUnit 0, modelNormUnit, lmHeadUnit cfgOne] [1] planResOne 0
    (by decide)

/-- Claim C8, amended: planning reserves off the top of each device's budget
exactly 2 × head_dim × max_seq_len × 2 bytes (rotary sin/cos tables) plus
hidden_size × max_input_len × max_batch_size × 2 bytes (max hidden state)
plus max_input_len² × 2 bytes (mask) before packing any unit, and returns
per device the unused budget remaining after planning divided by 1024³
(i.e. converted to GB — not the unused byte budget itself, as the claim
stated). -/
theorem c8_reserved_constants (cfg : ExLlamaV2Config)
    (wf sc : ExLlamaV2Module → Nat) (mods : List ExLlamaV2Module)
    (alloc : List Nat) (ec : Bool) (res : PlanResult)
    (h : set_device_map cfg wf sc mods alloc ec = Except.ok res) :
    initial_allocation_bytes cfg alloc = (alloc.map fun a : Nat => (a : Int) * 1024 ^ 3
      - 2 * (cfg.head_dim : Int) * cfg.max_seq_len * 2
      - (cfg.hidden_size : Int) * cfg.max_input_len * cfg.max_batch_size * 2
      - (cfg.max_input_len : Int) ^ 2 * 2) ∧
    set_device_map_return cfg wf sc mods alloc ec =
      Except.ok (res.allocation_bytes.map fun ab : Int => (ab : Rat) / 1024 ^ 3) := by
  constructor
  · rw [initial_allocation_bytes]
    apply List.map_congr_left
    intro a _
    ring
  · rw [set_device_map_return, h]

def planRes8 : PlanResult :=
  { device_map := [], allocation_bytes := [1073741824], reserve_bytes := [0],
    alloc_trace := [], device_tensors := [⟨0, 0, 0, false, false⟩] }

theorem c8_reserved_constants_witness :
    initial_allocation_bytes cfgZero [1] = ([1].map fun a : Nat => (a : Int) * 1024 ^ 3
      - 2 * (cfgZero.head_dim : Int) * cfgZero.max_seq_len * 2
      - (cfgZero.hidden_size : Int) * cfgZero.max_input_len * cfgZero.max_batch_size * 2
      - (cfgZero.max_input_len : Int) ^ 2 * 2) ∧
    set_device_map_return cfgZero wfZero scZero [] [1] true =
      Except.ok (planRes8.allocation_bytes.map fun ab : Int => (ab : Rat) / 1024 ^ 3) :=
  c8_reserved_constants cfgZero wfZero scZero [] [1] true planRes8 (by decide)

/-- Claim C8 as stated is false on the code: `set_device_map` does not return
the unused byte budgets; line 198 divides them by 1024**3 (returning GB).
At this concrete input the device's remaining budget after planning is
1073741824 bytes, but the returned per-device value is 1. -/
theorem c8_reserved_constants_cex :
    set_device_map_return cfgZero wfZero scZero [] [1] true = Except.ok [1] ∧
    (set_device_map cfgZero wfZero scZero [] [1] true).map PlanResult.allocation_bytes =
      Except.ok [1073741824] ∧
    ((1 : Rat) ≠ ((1073741824 : Int) : Rat)) := by
  have h1 : initial_allocation_bytes cfgZero [1] = [1073741824] := by decide
  refine ⟨?_, by decide, by norm_num⟩
  rw [set_device_map_return, set_device_map_nil_true]
  dsimp only [mkPlanResult]
  rw [h1]
  norm_num

/-- Claim C5: with a cache supplied, the cursor after the call is
`c + seq_len` exactly when the pass completed (the call did not raise) and
is the unchanged `c` when any unit's forward raised; and two sequential
completed passes of lengths S1 then S2 against the same fresh cache leave
`current_seq_len = S1 + S2`. -/
theorem c5_cache_cursor {α : Type}
    (mf : ExLlamaV2Module → α → Option AttnMask → Except String α)
    (mfok1 mfok2 : ExLlamaV2Module → α → Option AttnMask → α)
    (devOf : ExLlamaV2Module → Int) (mods : List ExLlamaV2Module)
    (lk batch_size seq_len s1 s2 c : Nat) (x0 x1 : α)
    (input_mask : Option ((Nat × Nat) × (Nat → Nat → Bool))) (pre : Bool) :
    (forward mf devOf mods lk batch_size seq_len x0 (some c) input_mask pre).2 =
      (if (forward mf devOf mods lk batch_size seq_len x0 (some c) input_mask pre).1.isOk
       then some (c + seq_len) else some c) ∧
    (forward (okMf mfok1) devOf mods lk batch_size s1 x0 (some 0) none false).2 =
      some s1 ∧
    (forward (okMf mfok2) devOf mods lk batch_size s2 x1
        ((forward (okMf mfok1) devOf mods lk batch_size s1 x0 (some 0) none false).2)
        none false).2 = some (s1 + s2) := by
  have hok : ∀ (g : ExLlamaV2Module → α → Option AttnMask → α) (s c2 : Nat) (x : α),
      (forward (okMf g) devOf mods lk batch_size s x (some c2) none false).2 =
        some (c2 + s) := by
    intro g s c2 x
    obtain ⟨r, hr⟩ := forwardLoop_ok g devOf lk batch_size s c2 none false mods 0 x
      none none
    rw [forward]
    simp only [Option.map_none']
    rw [hr]
    rfl
  refine ⟨?_, ?_, ?_⟩
  · cases input_mask with
    | none =>
      rw [forward]
      simp only [Option.map_none']
      cases hl : forwardLoop mf devOf lk batch_size seq_len c none pre 0 mods x0
          none none with
      | error e => rfl
      | ok r => rfl
    | some im =>
      rw [forward]
      simp only [Option.map_some']
      cases hb : (im.1 == (batch_size, seq_len)) with
      | false => rfl
      | true =>
        cases hl : forwardLoop mf devOf lk batch_size seq_len c (some im.2) pre 0
            mods x0 none none with
        | error e => rfl
        | ok r => rfl
  · rw [hok]
    norm_num
  · rw [hok mfok1 s1 0 x0, Nat.zero_add, hok mfok2 s2 s1 x1]

/-- Claim C4: with `preprocess_only` set, a cache supplied, and a backend
that succeeds on every unit, the pass executes exactly the units up to and
including index `last_kv_layer_idx` — the unit the graph builder recorded,
which is an attention unit — discards the activation (the call returns no
tensor), and still advances the cache cursor by seq_len.  Every executed
unit lies in the prefix before the output projection (the only
linear-projection unit, which sits at the last graph position), so the
output projection never executes. -/
theorem c4_preprocess_only {α : Type} (cfg : ExLlamaV2Config)
    (mfok : ExLlamaV2Module → α → Option AttnMask → α)
    (devOf : ExLlamaV2Module → Int) (batch_size seq_len c : Nat) (x0 : α)
    (lk : Nat) (m : ExLlamaV2Module)
    (h : last_kv_layer_idx (buildModules cfg) = some lk)
    (hm : m ∈ (buildModules cfg).take (lk + 1)) :
    forward (okMf mfok) devOf (buildModules cfg) lk batch_size seq_len x0
        (some c) none true =
      (Except.ok (none, ((buildModules cfg).take (lk + 1)).map fun u => u.key),
       some (c + seq_len)) ∧
    is_attn ((buildModules cfg).getD lk defaultUnit) = true ∧
    is_linear m = false := by
  rw [last_kv_layer_idx] at h
  obtain ⟨hlt, hattn⟩ := lastAttnFrom_spec (buildModules cfg) _ lk h
  have hblen : (buildModules cfg).length = (frontModules cfg).length + 1 := by
    rw [buildModules_eq_front]
    simp
  have hlast_not : lk ≠ (buildModules cfg).length - 1 := by
    intro he
    have hgl : (buildModules cfg).getD ((buildModules cfg).length - 1) defaultUnit =
        lmHeadUnit cfg := by
      rw [buildModules_eq_front]
      have h2 : (frontModules cfg ++ [lmHeadUnit cfg]).length - 1 =
          (frontModules cfg).length := by simp
      rw [← buildModules_eq_front, hblen]
      have h3 : (frontModules cfg).length + 1 - 1 = (frontModules cfg).length := by
        omega
      rw [h3, buildModules_eq_front, getD_append_last]
    rw [he, hgl] at hattn
    cases hattn
  have hlk1 : lk + 1 ≤ (frontModules cfg).length := by omega
  refine ⟨?_, hattn, ?_⟩
  · rw [forward]
    simp only [Option.map_none']
    rw [forwardLoop_stop mfok devOf lk batch_size seq_len c none (buildModules cfg)
      0 x0 none none (Nat.zero_le _) (by omega)]
    rw [Nat.sub_zero]
    rfl
  · have hmem : m ∈ frontModules cfg := by
      rw [buildModules_eq_front, List.take_append_of_le_length hlk1] at hm
      exact List.take_subset _ _ hm
    exact frontModules_not_linear cfg m hmem

theorem c4_preprocess_only_witness :
    forward (okMf fun _ x _ => (x : Nat)) (fun _ => 0) (buildModules cfgOne) 1 1 2 0
        (some 0) none true =
      (Except.ok (none, ((buildModules cfgOne).take (1 + 1)).map fun u => u.key),
       some (0 + 2)) ∧
    is_attn ((buildModules cfgOne).getD 1 defaultUnit) = true ∧
    is_linear embedUnit = false :=
  c4_preprocess_only cfgOne (fun _ x _ => x) (fun _ => 0) 1 2 0 0 1 embedUnit
    (by decide) (by decide)

/-- Claim C10: for a forward call with seq_len = 1 a supplied (well-shaped)
input mask has no effect: `build_attn_mask` returns none unconditionally for
seq_len = 1, so every unit receives attn_mask = None and the call coincides
with the call that has no input mask and hands every unit no mask; the input
mask is consulted only by the initial shape check. -/
theorem c10_single_token_mask_ignored {α : Type}
    (mf : ExLlamaV2Module → α → Option AttnMask → Except String α)
    (devOf : ExLlamaV2Module → Int) (mods : List ExLlamaV2Module)
    (lk batch_size : Nat) (x0 : α) (cache : Option Nat)
    (f : Nat → Nat → Bool) (pre : Bool) :
    forward mf devOf mods lk batch_size 1 x0 cache (some ((batch_size, 1), f)) pre =
      forward (fun u y _ => mf u y none) devOf mods lk batch_size 1 x0 cache none
        pre := by
  cases cache with
  | none =>
    rw [forward, forward]
    simp only [beq_self_eq_true, if_true, Option.map_some', Option.map_none']
    rw [forwardLoop_seq1 mf devOf lk batch_size 0 (some f) pre mods 0 x0 none]
  | some c =>
    rw [forward, forward]
    simp only [beq_self_eq_true, if_true, Option.map_some', Option.map_none']
    rw [forwardLoop_seq1 mf devOf lk batch_size c (some f) pre mods 0 x0 none]

/-- Rounding, cursor and laziness behaviour of one `get_scratch_slice`. -/
theorem get_scratch_slice_spec (dt : ExLlamaV2DeviceTensors) (s : Nat) :
    (get_scratch_slice dt s).1.offset = dt.scratch_idx ∧
    (get_scratch_slice dt s).1.len = (s + 127) / 128 * 128 / 2 ∧
    (get_scratch_slice dt s).2.scratch_idx =
      dt.scratch_idx + (s + 127) / 128 * 128 / 2 ∧
    (get_scratch_slice dt s).2.has_scratch = true := by
  by_cases hs : dt.has_scratch <;> simp [get_scratch_slice, prepare, hs]

theorem scratchRun_cons (dt : ExLlamaV2DeviceTensors) (s : Nat) (rest : List Nat) :
    scratchRun dt (s :: rest) =
      ((get_scratch_slice dt s).1 :: (scratchRun (get_scratch_slice dt s).2 rest).1,
       (scratchRun (get_scratch_slice dt s).2 rest).2) := rfl

theorem scratchRun_spec (reqs : List Nat) : ∀ dt : ExLlamaV2DeviceTensors,
    dt.scratch_idx ≤ (scratchRun dt reqs).2.scratch_idx ∧
    (∀ sl ∈ (scratchRun dt reqs).1,
       dt.scratch_idx ≤ sl.offset ∧
       sl.offset + sl.len ≤ (scratchRun dt reqs).2.scratch_idx) ∧
    List.Pairwise (fun a b : ScratchSlice => a.offset + a.len ≤ b.offset)
      (scratchRun dt reqs).1 := by
  induction reqs with
  | nil =>
    intro dt
    refine ⟨Nat.le_refl _, ?_, ?_⟩
    · intro sl hsl
      cases hsl
    · exact List.Pairwise.nil
  | cons s rest ih =>
    intro dt
    obtain ⟨hcur, hmem, hpw⟩ := ih (get_scratch_slice dt s).2
    obtain ⟨ho, hl, hi, _⟩ := get_scratch_slice_spec dt s
    rw [scratchRun_cons]
    dsimp only
    refine ⟨?_, ?_, ?_⟩
    · rw [hi] at hcur
      omega
    · intro sl hsl
      rcases List.mem_cons.mp hsl with rfl | hsl
      · refine ⟨by rw [ho], ?_⟩
        have := hcur
        rw [hi] at this
        omega
      · obtain ⟨h1, h2⟩ := hmem sl hsl
        rw [hi] at h1
        exact ⟨by omega, h2⟩
    · refine List.Pairwise.cons ?_ hpw
      intro b hb
      obtain ⟨h1, _⟩ := hmem b hb
      rw [hi] at h1
      omega

/-- Claim C6: `get_scratch_slice` rounds the request up to the next 128-byte
boundary (in particular a 130-byte request advances the bump cursor by 256
bytes), returns a view starting at the current cursor, advances the cursor
by the rounded size, lazily preparing the arena when absent; consequently
the slices produced by a sequence of requests within one reset cycle
(between `begin_scratch_alloc` calls) are pairwise disjoint: each earlier
slice ends at or before each later slice begins.  (The cursor is counted in
half-precision elements, so byte positions are twice the cursor.) -/
theorem c6_scratch_alloc (dt : ExLlamaV2DeviceTensors) (s1 : Nat)
    (reqs : List Nat) :
    (get_scratch_slice dt s1).1.offset = dt.scratch_idx ∧
    2 * (get_scratch_slice dt s1).2.scratch_idx =
      2 * dt.scratch_idx + (s1 + 127) / 128 * 128 ∧
    2 * ((get_scratch_slice dt 130).2.scratch_idx - dt.scratch_idx) = 256 ∧
    (get_scratch_slice dt s1).2.has_scratch = true ∧
    List.Pairwise (fun a b : ScratchSlice => a.offset + a.len ≤ b.offset)
      (scratchRun dt reqs).1 := by
  obtain ⟨ho, hl, hi, hh⟩ := get_scratch_slice_spec dt s1
  obtain ⟨_, _, hi130, _⟩ := get_scratch_slice_spec dt 130
  refine ⟨ho, ?_, ?_, hh, (scratchRun_spec reqs dt).2.2⟩
  · rw [hi]
    omega
  · rw [hi130]
    omega
